import Mathlib

/-!
# Verification of the devsql `ccql` SQL layer

Shallow embedding of the write-safety guard (`src/crates/ccql/src/sql/safety.rs`),
the query orchestrator (`src/crates/ccql/src/sql/mod.rs`) and the composite
storage adapter (`src/crates/ccql/src/sql/composite_storage.rs`).

Modelling conventions:
* Rust `String`/`&str` are Lean `String`; the SQL text handled by the guard is
  ASCII, so Rust's Unicode `to_uppercase`/`to_lowercase`/`is_whitespace`/
  `is_alphanumeric` coincide with Lean's ASCII `Char.toUpper`/`Char.toLower`/
  `Char.isWhitespace`/`Char.isAlphanum` on all inputs of interest.
* Rust byte indices into `&str` become character indices of `List Char`
  (equivalent for ASCII text).
* `PathBuf` is a `String`; `Path::join` with a relative component is
  modelled as `dir ++ "/" ++ name` (Unix semantics).
* The filesystem is an explicit value (`Fs`): a partial map from paths to
  byte contents.  I/O that can fail (`fs::copy`) takes the possible failure
  as an explicit oracle input.
* `serde_json::Value` numbers are modelled as unbounded integers; IEEE
  floating point is outside the embedding (no claim depends on it).
-/

namespace Devsql

/-! ## String primitives (models of Rust `str` operations) -/

/-- Model of Rust `haystack.contains(pat)`: `pat` occurs as a contiguous
substring, checked at every suffix. -/
def listContainsSub (pat : List Char) : List Char → Bool
  | [] => pat.isEmpty
  | c :: rest => pat.isPrefixOf (c :: rest) || listContainsSub pat rest

/-- Model of Rust `haystack.find(pat)`: index of the first occurrence. -/
def listFindSub (pat : List Char) : List Char → Option Nat
  | [] => if pat.isEmpty then some 0 else none
  | c :: rest =>
    if pat.isPrefixOf (c :: rest) then some 0
    else (listFindSub pat rest).map (· + 1)

/-- `s.contains(pat)` on strings. -/
def strContains (s pat : String) : Bool :=
  listContainsSub pat.data s.data

/-- `s.find(pat)` on strings (character index). -/
def strFind (s pat : String) : Option Nat :=
  listFindSub pat.data s.data

/-- `s.starts_with(pat)`. -/
def strStartsWith (s pat : String) : Bool :=
  pat.data.isPrefixOf s.data

/-- Lexicographic order on character lists; on UTF-8 data this equals
Rust's byte-order `Ord` for `String` (UTF-8 preserves codepoint order). -/
def charListLt : List Char → List Char → Bool
  | [], [] => false
  | [], _ :: _ => true
  | _ :: _, [] => false
  | a :: as, b :: bs => if a < b then true else if b < a then false else charListLt as bs

/-- Rust `String` `Ord`'s strict order. -/
def strLt (a b : String) : Bool := charListLt a.data b.data

/-- Rust `str::trim`: strip whitespace from both ends. -/
def strTrim (s : String) : String :=
  ⟨(s.data.dropWhile Char.isWhitespace).reverse.dropWhile Char.isWhitespace |>.reverse⟩

/-- Rust `str::to_uppercase` (ASCII fragment). -/
def strUpper (s : String) : String := ⟨s.data.map Char.toUpper⟩

/-- Rust `str::to_lowercase` (ASCII fragment). -/
def strLower (s : String) : String := ⟨s.data.map Char.toLower⟩

/-- Worker for `splitWhitespace`: `cur` is the (reversed) word in progress. -/
def splitWsAux (cur : List Char) : List Char → List String
  | [] => if cur.isEmpty then [] else [⟨cur.reverse⟩]
  | c :: cs =>
    if c.isWhitespace then
      if cur.isEmpty then splitWsAux [] cs else (⟨cur.reverse⟩ : String) :: splitWsAux [] cs
    else splitWsAux (c :: cur) cs

/-- Rust `str::split_whitespace`: maximal non-whitespace runs, no empties. -/
def splitWhitespace (s : String) : List String :=
  splitWsAux [] s.data

/-- Rust `Vec::join(" ")`. -/
def joinSpace : List String → String
  | [] => ""
  | [w] => w
  | w :: ws => w ++ " " ++ joinSpace ws

/-! ## `safety.rs`: SQL normalization and danger classification -/

/-- `normalize_sql`: collapse whitespace to single spaces, then uppercase. -/
def normalize_sql (sql : String) : String :=
  strUpper (joinSpace (splitWhitespace sql))

/-- `is_delete_without_where` on normalized SQL. -/
def is_delete_without_where (n : String) : Bool :=
  if !strStartsWith n "DELETE " then false
  else !strContains n " WHERE "

/-- `is_update_without_where` on normalized SQL. -/
def is_update_without_where (n : String) : Bool :=
  if !strStartsWith n "UPDATE " then false
  else !strContains n " WHERE "

/-- `is_truncate` on normalized SQL. -/
def is_truncate (n : String) : Bool :=
  strStartsWith n "TRUNCATE "

/-- `SafetyCheckResult`. -/
inductive SafetyCheckResult where
  | safe : SafetyCheckResult
  | dangerous (reason : String) : SafetyCheckResult
deriving DecidableEq, Repr

def deleteDangerMsg : String :=
  "DELETE without WHERE clause would delete all rows. Use 'DELETE FROM table WHERE 1=1' if you really want to delete everything."

def updateDangerMsg : String :=
  "UPDATE without WHERE clause would modify all rows. Use 'UPDATE table SET ... WHERE 1=1' if you really want to update everything."

def truncateDangerMsg : String :=
  "TRUNCATE would delete all rows. Use DELETE with explicit WHERE clause instead."

/-- `SafetyGuard::check_query`. -/
def check_query (sql : String) : SafetyCheckResult :=
  let n := normalize_sql sql
  if is_delete_without_where n then .dangerous deleteDangerMsg
  else if is_update_without_where n then .dangerous updateDangerMsg
  else if is_truncate n then .dangerous truncateDangerMsg
  else .safe

/-- `extract_identifier`: leading run of alphanumeric/underscore characters
of the trimmed string, lowercased; `none` when that run is empty. -/
def extract_identifier (s : String) : Option String :=
  let t := (strTrim s).data
  let stop := (t.findIdx? (fun c => !(c.isAlphanum || c = '_'))).getD t.length
  if stop > 0 then some (strLower ⟨t.take stop⟩) else none

/-- `extract_table_name`: first identifier after `DELETE FROM ` / `UPDATE ` /
`INSERT INTO ` / `TRUNCATE ` in the normalized statement. -/
def extract_table_name (sql : String) : Option String :=
  let n := (normalize_sql sql).data
  match listFindSub "DELETE FROM ".data n with
  | some pos => extract_identifier ⟨n.drop (pos + 12)⟩
  | none =>
  match listFindSub "UPDATE ".data n with
  | some pos => extract_identifier ⟨n.drop (pos + 7)⟩
  | none =>
  match listFindSub "INSERT INTO ".data n with
  | some pos => extract_identifier ⟨n.drop (pos + 12)⟩
  | none =>
  match listFindSub "TRUNCATE ".data n with
  | some pos => extract_identifier ⟨n.drop (pos + 9)⟩
  | none => none

/-! ## JSON values (`serde_json::Value`)

Numbers are modelled as unbounded integers covering the `i64`/`u64` variants
of `serde_json::Number`; IEEE floating-point numbers are outside the
embedding (no claim depends on them).  Objects model `serde_json::Map`,
which is a `BTreeMap`: entry lists are sorted by key with unique keys
(`Json.wfB` below states that invariant where a theorem needs it). -/

inductive Json where
  | null : Json
  | bool (b : Bool) : Json
  | num (n : Int) : Json
  | str (s : String) : Json
  | arr (elems : List Json) : Json
  | obj (entries : List (String × Json)) : Json

/-- Decimal digits worker; the first argument is fuel (`n + 1` suffices). -/
def natDecAux : Nat → Nat → List Char
  | 0, _ => []
  | fuel + 1, n =>
    if n < 10 then [Char.ofNat (48 + n)]
    else natDecAux fuel (n / 10) ++ [Char.ofNat (48 + n % 10)]

/-- Decimal rendering of a `Nat`. -/
def natDecimal (n : Nat) : String := ⟨natDecAux (n + 1) n⟩

/-- Decimal rendering of an `Int` (Rust `i64` `Display`). -/
def intDecimal (n : Int) : String :=
  if n < 0 then "-" ++ natDecimal n.natAbs else natDecimal n.natAbs

/-- JSON string escaping as `serde_json` emits it. -/
def jsonEscapeChar (c : Char) : List Char :=
  if c = '"' then ['\\', '"']
  else if c = '\\' then ['\\', '\\']
  else if c = '\x08' then ['\\', 'b']
  else if c = '\x0c' then ['\\', 'f']
  else if c = '\n' then ['\\', 'n']
  else if c = '\r' then ['\\', 'r']
  else if c = '\t' then ['\\', 't']
  else if c.toNat < 32 then
    let hex := fun (d : Nat) => Char.ofNat (if d < 10 then 48 + d else 87 + d)
    ['\\', 'u', '0', '0', hex (c.toNat / 16), hex (c.toNat % 16)]
  else [c]

/-- Quoted, escaped JSON string literal. -/
def jsonQuote (s : String) : String :=
  ⟨'"' :: s.data.flatMap jsonEscapeChar ++ ['"']⟩

mutual
/-- Compact serialization, the model of `serde_json::Value::to_string()`
(`Display`).  Exercised by `json_value_as_string` on non-string scalars. -/
def Json.render : Json → String
  | .null => "null"
  | .bool b => if b then "true" else "false"
  | .num n => intDecimal n
  | .str s => jsonQuote s
  | .arr xs => "[" ++ Json.renderList xs ++ "]"
  | .obj kvs => "\x7b" ++ Json.renderObj kvs ++ "\x7d"

def Json.renderList : List Json → String
  | [] => ""
  | [x] => Json.render x
  | x :: xs => Json.render x ++ "," ++ Json.renderList xs

def Json.renderObj : List (String × Json) → String
  | [] => ""
  | [(k, v)] => jsonQuote k ++ ":" ++ Json.render v
  | (k, v) :: kvs => jsonQuote k ++ ":" ++ Json.render v ++ "," ++ Json.renderObj kvs
end

/-- `i64::MIN`. -/
def I64_MIN : Int := -(2 ^ 63)

/-- `i64::MAX`. -/
def I64_MAX : Int := 2 ^ 63 - 1

/-- The integer is representable as an `i64`. -/
def inI64 (n : Int) : Bool := decide (I64_MIN ≤ n) && decide (n ≤ I64_MAX)

/-- `i64::saturating_mul`: the exact product clamped into `i64` range. -/
def i64SatMul (a b : Int) : Int :=
  let r := a * b
  if r < I64_MIN then I64_MIN else if r > I64_MAX then I64_MAX else r

/-- Rust `str::parse::<i64>()`: optional sign, one or more digits, in range. -/
def parseI64 (s : String) : Option Int :=
  let (sign, digits) : Int × List Char :=
    match s.data with
    | '+' :: rest => (1, rest)
    | '-' :: rest => (-1, rest)
    | cs => (1, cs)
  if digits.isEmpty || !digits.all Char.isDigit then none
  else
    let v : Int := sign * ((digits.foldl (fun acc c => acc * 10 + (c.toNat - 48)) 0 : Nat) : Int)
    if inI64 v then some v else none

/-- Lookup in a `serde_json::Map` (`obj.get(key)`); keys are unique. -/
def objGet (key : String) : List (String × Json) → Option Json
  | [] => none
  | (k, v) :: rest => if k = key then some v else objGet key rest

/-! ## GlueSQL values (`gluesql::prelude::Value`)

Only the constructors producible by this storage layer's codec are
modelled (`composite_storage.rs` builds `Null/Bool/I64/F64/Str/List/Map`);
the engine-side constructors (`I8..U128`, dates, …) are unreachable from
the codec and out of scope.  `.f64` carries the integer whose `as_f64`
image `Value::F64` would hold: it arises only for integers outside `i64`
range, and no theorem exercises it (IEEE rounding is not modelled). -/

inductive GlueValue where
  | null : GlueValue
  | bool (b : Bool) : GlueValue
  | i64 (n : Int) : GlueValue
  | f64 (n : Int) : GlueValue
  | str (s : String) : GlueValue
  | list (elems : List GlueValue) : GlueValue
  | map (entries : List (String × GlueValue)) : GlueValue

mutual
/-- `json_value_to_glue_value` (composite_storage.rs:369).  A number maps
to `I64` when `as_i64` succeeds (i.e. it is i64-representable), else to
`F64`; the `Str` fallback arm is unreachable for integer numbers. -/
def json_value_to_glue_value : Json → GlueValue
  | .null => .null
  | .bool b => .bool b
  | .num n => if inI64 n then .i64 n else .f64 n
  | .str s => .str s
  | .arr xs => .list (jvgList xs)
  | .obj kvs => .map (jvgObj kvs)

/-- `arr.iter().map(json_value_to_glue_value).collect()`. -/
def jvgList : List Json → List GlueValue
  | [] => []
  | x :: xs => json_value_to_glue_value x :: jvgList xs

/-- `obj.iter().map(|(k, v)| (k.clone(), json_value_to_glue_value(v))).collect::<HashMap<_,_>>()`;
the `HashMap` is modelled as the entry list in iteration order. -/
def jvgObj : List (String × Json) → List (String × GlueValue)
  | [] => []
  | (k, v) :: kvs => (k, json_value_to_glue_value v) :: jvgObj kvs
end

/-- `BTreeMap` insert: place by key order, overwrite an equal key. -/
def btreeInsert (k : String) (v : Json) : List (String × Json) → List (String × Json)
  | [] => [(k, v)]
  | (k', v') :: rest =>
    if strLt k k' then (k, v) :: (k', v') :: rest
    else if k = k' then (k, v) :: rest
    else (k', v') :: btreeInsert k v rest

/-- `collect::<serde_json::Map>()`: fold `BTreeMap` inserts in iteration
order (later duplicates overwrite). -/
def btreeFromList (l : List (String × Json)) : List (String × Json) :=
  l.foldl (fun acc kv => btreeInsert kv.1 kv.2 acc) []

mutual
/-- `glue_value_to_json` (mod.rs:203) restricted to the codec-producible
constructors.  `.f64` is rendered as its integer (see `GlueValue`); no
theorem relies on that arm. -/
def glue_value_to_json : GlueValue → Json
  | .null => .null
  | .bool b => .bool b
  | .i64 n => .num n
  | .f64 n => .num n
  | .str s => .str s
  | .list xs => .arr (gvjList xs)
  | .map kvs => .obj (btreeFromList (gvjObj kvs))

/-- `list.iter().map(glue_value_to_json).collect()`. -/
def gvjList : List GlueValue → List Json
  | [] => []
  | x :: xs => glue_value_to_json x :: gvjList xs

/-- `map.iter().map(|(k, v)| (k.clone(), glue_value_to_json(v)))`. -/
def gvjObj : List (String × GlueValue) → List (String × Json)
  | [] => []
  | (k, v) :: kvs => (k, glue_value_to_json v) :: gvjObj kvs
end

/-- `k` strictly precedes every key of the list. -/
def keysLtAllB (k : String) : List (String × Json) → Bool
  | [] => true
  | b :: rest => strLt k b.1 && keysLtAllB k rest

/-- Strict key order (the `BTreeMap` entry-list invariant): every key
strictly precedes all later keys. -/
def keysSortedB : List (String × Json) → Bool
  | [] => true
  | a :: rest => keysLtAllB a.1 rest && keysSortedB rest

mutual
/-- Well-formedness for claim C9's input class: every number is
i64-representable and every object is a valid `BTreeMap` entry list
(strictly sorted keys), as `serde_json` maintains. -/
def Json.wfB : Json → Bool
  | .null => true
  | .bool _ => true
  | .num n => inI64 n
  | .str _ => true
  | .arr xs => Json.wfListB xs
  | .obj kvs => keysSortedB kvs && Json.wfObjB kvs

def Json.wfListB : List Json → Bool
  | [] => true
  | x :: xs => Json.wfB x && Json.wfListB xs

def Json.wfObjB : List (String × Json) → Bool
  | [] => true
  | (_, v) :: kvs => Json.wfB v && Json.wfObjB kvs
end

/-! ## Rows and row builders (`composite_storage.rs`)

`DataRow::Map(HashMap<String, Value>)` is the only `DataRow` variant this
layer builds.  The `HashMap` is modelled as an association list whose
`insert` overwrites an existing key in place and otherwise appends; lookup
takes the unique binding. -/

inductive DataRow where
  | map (entries : List (String × GlueValue)) : DataRow

/-- The underlying entry list of a row. -/
def DataRow.entries : DataRow → List (String × GlueValue)
  | .map m => m

/-- `HashMap::insert`: overwrite the binding in place, else append. -/
def hmInsert (k : String) (v : GlueValue) : List (String × GlueValue) → List (String × GlueValue)
  | [] => [(k, v)]
  | (k', v') :: rest => if k' = k then (k, v) :: rest else (k', v') :: hmInsert k v rest

/-- `HashMap::get`. -/
def hmGet (k : String) : List (String × GlueValue) → Option GlueValue
  | [] => none
  | (k', v) :: rest => if k' = k then some v else hmGet k rest

/-- The `for (key, value) in obj { map.insert(key, json_value_to_glue_value(value)) }`
loop shared by the transcript and todo row builders. -/
def objFoldInsert : List (String × Json) → List (String × GlueValue) → List (String × GlueValue)
  | [], m => m
  | (k, v) :: rest, m => objFoldInsert rest (hmInsert k (json_value_to_glue_value v) m)

/-- `json_to_data_row_with_meta` (composite_storage.rs:229): metadata
columns inserted first, then every field of the parsed object. -/
def json_to_data_row_with_meta (j : Json) (source_file session_id : String) : DataRow :=
  let m := hmInsert "_source_file" (.str source_file) []
  let m := hmInsert "_session_id" (.str session_id) m
  let m := match j with
    | .obj kvs => objFoldInsert kvs m
    | _ => m
  .map m

/-- `todo_json_to_data_row` (composite_storage.rs:251). -/
def todo_json_to_data_row (j : Json) (source_file workspace_id agent_id : String) : DataRow :=
  let m := hmInsert "_source_file" (.str source_file) []
  let m := hmInsert "_workspace_id" (.str workspace_id) m
  let m := hmInsert "_agent_id" (.str agent_id) m
  let m := match j with
    | .obj kvs => objFoldInsert kvs m
    | _ => m
  .map m

/-- `normalize_ts_seconds` (composite_storage.rs:328): epoch milliseconds
become seconds; Rust `i64` division truncates toward zero. -/
def normalize_ts_seconds (raw_ts : Int) : Int :=
  if raw_ts > 10000000000 then Int.tdiv raw_ts 1000 else raw_ts

/-- `json_value_as_i64` (composite_storage.rs:337): an i64-representable
number, or a string parsed as `i64`; everything else is `none`. -/
def json_value_as_i64 : Json → Option Int
  | .num n => if inI64 n then some n else none
  | .str s => parseI64 s
  | _ => none

/-- `json_value_as_string` (composite_storage.rs:347): a string itself,
`null` nothing, any other value its JSON serialization. -/
def json_value_as_string : Json → Option String
  | .str s => some s
  | .null => none
  | other => some (Json.render other)

/-- The `for (key, value) in obj` loop of `jhistory_json_to_data_row` that
preserves extra fields, skipping the six canonical names. -/
def jhistoryExtraInsert : List (String × Json) → List (String × GlueValue) → List (String × GlueValue)
  | [], m => m
  | (k, v) :: rest, m =>
    if k = "display" || k = "timestamp" || k = "session_id" || k = "sessionId"
        || k = "text" || k = "ts" then
      jhistoryExtraInsert rest m
    else
      jhistoryExtraInsert rest (hmInsert k (json_value_to_glue_value v) m)

/-- `jhistory_json_to_data_row` (composite_storage.rs:279).  Note: only the
`timestamp` fallback goes through `normalize_ts_seconds`; a `ts` value is
used verbatim. -/
def jhistory_json_to_data_row (j : Json) : Option DataRow :=
  match j with
  | .obj obj =>
    let text := (((objGet "text" obj).orElse fun _ => objGet "display" obj).bind
      json_value_as_string).getD ""
    let session_id := (((objGet "session_id" obj).orElse fun _ => objGet "sessionId" obj).bind
      json_value_as_string).getD ""
    let ts_seconds := (((objGet "ts" obj).bind json_value_as_i64).orElse fun _ =>
      ((objGet "timestamp" obj).bind json_value_as_i64).map normalize_ts_seconds).getD 0
    let timestamp_millis := i64SatMul ts_seconds 1000
    let m := hmInsert "display" (.str text) []
    let m := hmInsert "timestamp" (.i64 timestamp_millis) m
    let m := hmInsert "session_id" (.str session_id) m
    let m := hmInsert "sessionId" (.str session_id) m
    let m := hmInsert "text" (.str text) m
    let m := hmInsert "ts" (.i64 ts_seconds) m
    some (.map (jhistoryExtraInsert obj m))
  | _ => none

/-- Rust `str::strip_suffix`. -/
def strStripSuffix (s suffix : String) : Option String :=
  if suffix.data.isSuffixOf s.data then
    some ⟨s.data.take (s.data.length - suffix.data.length)⟩
  else none

/-- Rust `str::strip_prefix`. -/
def strStripPrefix (s prefix_ : String) : Option String :=
  if prefix_.data.isPrefixOf s.data then some ⟨s.data.drop prefix_.data.length⟩ else none

/-- `parse_todo_filename` (composite_storage.rs:356): strip `.json`, split
at the first `-agent-` into workspace and agent ids. -/
def parse_todo_filename (filename : String) : String × String :=
  let name := (strStripSuffix filename ".json").getD filename
  match listFindSub "-agent-".data name.data with
  | some idx => (⟨name.data.take idx⟩, ⟨name.data.drop (idx + 7)⟩)
  | none => (name, "unknown")

/-! ## Path model (`std::path`)

A `PathBuf` is the full path string; the file name is the part after the
last `/`.  `Path::extension` is the part of the file name after its last
`.`, provided that `.` is not the leading character (`None` otherwise);
`set_extension` replaces it.  `join` with a relative name appends `/name`. -/

/-- Index of the last occurrence of a character. -/
def lastIdxOf (target : Char) : List Char → Option Nat
  | [] => none
  | c :: rest =>
    match lastIdxOf target rest with
    | some i => some (i + 1)
    | none => if c = target then some 0 else none

/-- Split a path into directory prefix (with trailing `/`) and file name. -/
def splitFileName (p : String) : String × String :=
  match lastIdxOf '/' p.data with
  | some i => (⟨p.data.take (i + 1)⟩, ⟨p.data.drop (i + 1)⟩)
  | none => ("", p)

/-- `Path::extension` applied to a file name (model; `some ""` is Rust's
`Some("")` for a trailing dot). -/
def fileNameExt (name : List Char) : Option (List Char) :=
  match lastIdxOf '.' name with
  | some i => if i > 0 then some (name.drop (i + 1)) else none
  | none => none

/-- `Path::extension` of a path. -/
def pathExtension (p : String) : Option String :=
  ((fileNameExt (splitFileName p).2.data).map fun e => (⟨e⟩ : String))

/-- `Path::set_extension` with a non-empty extension: strip the current
extension (if any) and append `.ext`. -/
def setExtension (p ext : String) : String :=
  let (dir, name) := splitFileName p
  let stem : List Char :=
    match lastIdxOf '.' name.data with
    | some i => if i > 0 then name.data.take i else name.data
    | none => name.data
  dir ++ (⟨stem⟩ : String) ++ "." ++ ext

/-! ## Disk state and virtual-table scanners (`composite_storage.rs`)

The scanners' observable inputs are modelled explicitly:
* a JSONL file is a list of per-line parse outcomes (`none` = blank or
  unparsable line, skipped; `some j` = the parsed JSON of the line);
* a JSON file is one whole-file parse outcome;
* a file or directory wrapped in `Except String` models `fs::File::open` /
  `fs::read_dir` failing with that I/O error even though the path exists;
  an outer `none` means the path does not exist.
Directory entries are listed in filesystem enumeration order. -/

/-- One file of the transcripts directory. -/
structure JsonlFile where
  name : String
  /-- `none` models `fs::File::open` failing: the file is skipped. -/
  lines : Option (List (Option Json))

/-- One file of the todos directory. -/
structure JsonFile where
  name : String
  /-- `none` models an unreadable or unparsable file: skipped. -/
  content : Option Json

structure DiskState where
  jhistory : Option (Except String (List (Option Json)))
  transcripts : Option (Except String (List JsonlFile))
  todos : Option (Except String (List JsonFile))

/-- GlueSQL errors as this adapter produces them. -/
inductive GlueErr where
  | storageMsg (msg : String) : GlueErr
deriving DecidableEq

/-- Scan-local row key (`Key::I64`; the only variant the scanners build). -/
inductive Key where
  | i64 (n : Int) : Key
deriving DecidableEq

/-- Assign sequential `Key::I64` row ids starting at 0. -/
def numberRows (rows : List DataRow) : List (Key × DataRow) :=
  rows.enum.map fun p => (Key.i64 (p.1 : Int), p.2)

/-- `CompositeStorage::is_virtual_table`. -/
def is_virtual_table (t : String) : Bool :=
  t = "jhistory" || t = "codex_history" || t = "transcripts" || t = "todos"

/-- `CompositeStorage::scan_jhistory` (composite_storage.rs:49). -/
def scan_jhistory (d : DiskState) : Except GlueErr (List (Key × DataRow)) :=
  match d.jhistory with
  | none => .ok []
  | some (.error e) => .error (.storageMsg ("Failed to open jhistory file: " ++ e))
  | some (.ok lines) =>
    .ok (numberRows ((lines.filterMap id).filterMap jhistory_json_to_data_row))

/-- Per-file transcript rows: `.jsonl` files only, session id from the
file name by stripping `ses_` / `.jsonl`, one row per parsed line. -/
def transcriptFileRows (f : JsonlFile) : List DataRow :=
  if (pathExtension f.name).any (· = "jsonl") then
    let source_file := f.name
    let session_id :=
      (((strStripPrefix source_file "ses_").bind fun s =>
        strStripSuffix s ".jsonl")).getD source_file
    match f.lines with
    | none => []
    | some lines =>
      (lines.filterMap id).map fun j => json_to_data_row_with_meta j source_file session_id
  else []

/-- `CompositeStorage::scan_transcripts` (composite_storage.rs:79). -/
def scan_transcripts (d : DiskState) : Except GlueErr (List (Key × DataRow)) :=
  match d.transcripts with
  | none => .ok []
  | some (.error e) => .error (.storageMsg ("Failed to read transcripts dir: " ++ e))
  | some (.ok files) => .ok (numberRows (files.flatMap transcriptFileRows))

/-- Per-file todo rows: `.json` files only, workspace/agent ids from the
file name, one row per array element or one row for a single object. -/
def todoFileRows (f : JsonFile) : List DataRow :=
  if (pathExtension f.name).any (· = "json") then
    let source_file := f.name
    let ids := parse_todo_filename source_file
    match f.content with
    | none => []
    | some (.arr items) =>
      items.map fun item => todo_json_to_data_row item source_file ids.1 ids.2
    | some (.obj kvs) => [todo_json_to_data_row (.obj kvs) source_file ids.1 ids.2]
    | some _ => []
  else []

/-- `CompositeStorage::scan_todos` (composite_storage.rs:124). -/
def scan_todos (d : DiskState) : Except GlueErr (List (Key × DataRow)) :=
  match d.todos with
  | none => .ok []
  | some (.error e) => .error (.storageMsg ("Failed to read todos dir: " ++ e))
  | some (.ok files) => .ok (numberRows (files.flatMap todoFileRows))

/-! ## Schemas and the `Store` contract -/

/-- `gluesql::core::data::Schema`; the element types of the always-empty
fields are immaterial stand-ins. -/
structure Schema where
  table_name : String
  column_defs : Option (List String)
  indexes : List String
  engine : Option String
  foreign_keys : List String
  comment : Option String
deriving DecidableEq

/-- `codex_history_schema_for` (composite_storage.rs:192). -/
def codex_history_schema_for (table_name : String) : Schema :=
  { table_name := table_name
    column_defs := none
    indexes := []
    engine := none
    foreign_keys := []
    comment := some "Virtual table for Codex CLI history.jsonl" }

/-- `transcripts_schema` (composite_storage.rs:204). -/
def transcripts_schema : Schema :=
  { table_name := "transcripts"
    column_defs := none
    indexes := []
    engine := none
    foreign_keys := []
    comment := some "Virtual table merging all transcript files" }

/-- `todos_schema` (composite_storage.rs:216). -/
def todos_schema : Schema :=
  { table_name := "todos"
    column_defs := none
    indexes := []
    engine := none
    foreign_keys := []
    comment := some "Virtual table merging all todo files" }

/-- The read side of the delegate `gluesql_json_storage::JsonStorage`,
abstract: any behaviour is admissible. -/
structure JsmStore where
  fetch_schema : String → Except GlueErr (Option Schema)
  fetch_data : String → Key → Except GlueErr (Option DataRow)
  scan_data : String → Except GlueErr (List (Key × DataRow))

/-- `Store::fetch_schema for CompositeStorage` (composite_storage.rs:403). -/
def CompositeStorage.fetch_schema (jsm : JsmStore) (t : String) :
    Except GlueErr (Option Schema) :=
  match t with
  | "jhistory" => .ok (some (codex_history_schema_for "jhistory"))
  | "codex_history" => .ok (some (codex_history_schema_for "codex_history"))
  | "transcripts" => .ok (some transcripts_schema)
  | "todos" => .ok (some todos_schema)
  | _ => jsm.fetch_schema t

/-- The `for (k, row) in rows { if &k == key { return Ok(Some(row)) } }` loop. -/
def findRowByKey (key : Key) (rows : List (Key × DataRow)) : Option DataRow :=
  (rows.find? fun r => r.1 = key).map (·.2)

/-- `Store::fetch_data for CompositeStorage` (composite_storage.rs:430). -/
def CompositeStorage.fetch_data (jsm : JsmStore) (d : DiskState) (t : String) (key : Key) :
    Except GlueErr (Option DataRow) :=
  if is_virtual_table t then
    match t with
    | "jhistory" | "codex_history" => (scan_jhistory d).map (findRowByKey key)
    | "transcripts" => (scan_transcripts d).map (findRowByKey key)
    | "todos" => (scan_todos d).map (findRowByKey key)
    | _ => .ok none
  else jsm.fetch_data t key

/-- `Store::scan_data for CompositeStorage` (composite_storage.rs:450); the
returned `RowIter` is modelled as the underlying row list. -/
def CompositeStorage.scan_data (jsm : JsmStore) (d : DiskState) (t : String) :
    Except GlueErr (List (Key × DataRow)) :=
  if is_virtual_table t then
    match t with
    | "jhistory" | "codex_history" => scan_jhistory d
    | "transcripts" => scan_transcripts d
    | "todos" => scan_todos d
    | _ => .ok []
  else jsm.scan_data t

/-! ## Mutation contract (`StoreMut`, `IndexMut`, `AlterTable`)

The delegate's state (its backing files) is an abstract type `σ`; every
delegate method may transform it arbitrarily.  Each composite method
returns its outcome together with the resulting state, so "the backing
files are untouched" is the returned state being the input state. -/

/-- The mutation side of the delegate `JsonStorage`, abstract over its
file state `σ`.  `ColumnDef`/`OrderByExpr` arguments are never inspected
by the composite layer and are modelled as `Unit`. -/
structure JsmMut (σ : Type) where
  insert_schema : σ → Schema → Except GlueErr Unit × σ
  delete_schema : σ → String → Except GlueErr Unit × σ
  append_data : σ → String → List DataRow → Except GlueErr Unit × σ
  insert_data : σ → String → List (Key × DataRow) → Except GlueErr Unit × σ
  delete_data : σ → String → List Key → Except GlueErr Unit × σ
  create_index : σ → String → String → Unit → Except GlueErr Unit × σ
  drop_index : σ → String → String → Except GlueErr Unit × σ
  rename_schema : σ → String → String → Except GlueErr Unit × σ
  rename_column : σ → String → String → String → Except GlueErr Unit × σ
  add_column : σ → String → Unit → Except GlueErr Unit × σ
  drop_column : σ → String → String → Bool → Except GlueErr Unit × σ

def CompositeStorage.insert_schema {σ} (jsm : JsmMut σ) (st : σ) (schema : Schema) :
    Except GlueErr Unit × σ :=
  if is_virtual_table schema.table_name then
    (.error (.storageMsg "Cannot create schema for virtual table"), st)
  else jsm.insert_schema st schema

def CompositeStorage.delete_schema {σ} (jsm : JsmMut σ) (st : σ) (t : String) :
    Except GlueErr Unit × σ :=
  if is_virtual_table t then
    (.error (.storageMsg "Cannot delete virtual table schema"), st)
  else jsm.delete_schema st t

def CompositeStorage.append_data {σ} (jsm : JsmMut σ) (st : σ) (t : String)
    (rows : List DataRow) : Except GlueErr Unit × σ :=
  if is_virtual_table t then
    (.error (.storageMsg "Write operations on virtual multi-file tables not yet supported"), st)
  else jsm.append_data st t rows

def CompositeStorage.insert_data {σ} (jsm : JsmMut σ) (st : σ) (t : String)
    (rows : List (Key × DataRow)) : Except GlueErr Unit × σ :=
  if is_virtual_table t then
    (.error (.storageMsg "Write operations on virtual multi-file tables not yet supported"), st)
  else jsm.insert_data st t rows

def CompositeStorage.delete_data {σ} (jsm : JsmMut σ) (st : σ) (t : String)
    (keys : List Key) : Except GlueErr Unit × σ :=
  if is_virtual_table t then
    (.error (.storageMsg "Write operations on virtual multi-file tables not yet supported"), st)
  else jsm.delete_data st t keys

def CompositeStorage.create_index {σ} (jsm : JsmMut σ) (st : σ) (t index_name : String)
    (column : Unit) : Except GlueErr Unit × σ :=
  if is_virtual_table t then
    (.error (.storageMsg "Cannot create index on virtual table"), st)
  else jsm.create_index st t index_name column

def CompositeStorage.drop_index {σ} (jsm : JsmMut σ) (st : σ) (t index_name : String) :
    Except GlueErr Unit × σ :=
  if is_virtual_table t then
    (.error (.storageMsg "Cannot drop index on virtual table"), st)
  else jsm.drop_index st t index_name

def CompositeStorage.rename_schema {σ} (jsm : JsmMut σ) (st : σ) (t new_t : String) :
    Except GlueErr Unit × σ :=
  if is_virtual_table t || is_virtual_table new_t then
    (.error (.storageMsg "Cannot rename virtual table"), st)
  else jsm.rename_schema st t new_t

def CompositeStorage.rename_column {σ} (jsm : JsmMut σ) (st : σ) (t old_col new_col : String) :
    Except GlueErr Unit × σ :=
  if is_virtual_table t then
    (.error (.storageMsg "Cannot alter virtual table"), st)
  else jsm.rename_column st t old_col new_col

def CompositeStorage.add_column {σ} (jsm : JsmMut σ) (st : σ) (t : String)
    (column_def : Unit) : Except GlueErr Unit × σ :=
  if is_virtual_table t then
    (.error (.storageMsg "Cannot alter virtual table"), st)
  else jsm.add_column st t column_def

def CompositeStorage.drop_column {σ} (jsm : JsmMut σ) (st : σ) (t col : String)
    (if_exists : Bool) : Except GlueErr Unit × σ :=
  if is_virtual_table t then
    (.error (.storageMsg "Cannot alter virtual table"), st)
  else jsm.drop_column st t col if_exists

/-! ## `mod.rs`: write-operation classification -/

/-- `is_write_operation`: trimmed, uppercased text starts with one of the
seven write keywords. -/
def is_write_operation (sql : String) : Bool :=
  let u := strUpper (strTrim sql)
  strStartsWith u "INSERT" || strStartsWith u "UPDATE" || strStartsWith u "DELETE"
    || strStartsWith u "DROP" || strStartsWith u "CREATE" || strStartsWith u "ALTER"
    || strStartsWith u "TRUNCATE"

/-! ## Configuration paths (`config/mod.rs`) -/

structure Config where
  data_dir : String
  codex_data_dir : String
deriving DecidableEq

def Config.history_file (c : Config) : String := c.data_dir ++ "/history.jsonl"
def Config.stats_file (c : Config) : String := c.data_dir ++ "/stats-cache.json"
def Config.jhistory_file (c : Config) : String := c.codex_data_dir ++ "/history.jsonl"
def Config.transcripts_dir (c : Config) : String := c.data_dir ++ "/transcripts"
def Config.todos_dir (c : Config) : String := c.data_dir ++ "/todos"

/-! ## Guard-visible filesystem and backup (`safety.rs`) -/

/-- The files the safety guard can see: path → byte contents
(`none` = the path does not exist). -/
def Fs : Type := String → Option (List Nat)

/-- `ccql::error::Error`, restricted to the variants this layer produces. -/
inductive CcqlError where
  | sql (msg : String) : CcqlError
  | writeNotAllowed (msg : String) : CcqlError
  | dangerousOperation (msg : String) : CcqlError
  | backupFailed (msg : String) : CcqlError
deriving DecidableEq

structure SafetyGuard where
  config : Config
  backup_enabled : Bool

/-- `SafetyGuard::get_table_path` (safety.rs:122): fixed paths for
`history`/`stats`; for any other name the existing `.jsonl` then `.json`
file under the data directory, else an `Error::Sql`. -/
def get_table_path (c : Config) (fs : Fs) (table_name : String) : Except CcqlError String :=
  match table_name with
  | "history" => .ok c.history_file
  | "stats" => .ok c.stats_file
  | _ =>
    let jsonl_path := c.data_dir ++ "/" ++ table_name ++ ".jsonl"
    if (fs jsonl_path).isSome then .ok jsonl_path
    else
      let json_path := c.data_dir ++ "/" ++ table_name ++ ".json"
      if (fs json_path).isSome then .ok json_path
      else .error (.sql ("Cannot determine file path for table: " ++ table_name))

/-- `create_backup_path` (safety.rs:224): append `.bak` to the existing
extension, or use the literal extension `bak` when there is none. -/
def create_backup_path (original : String) : String :=
  let extension := ((pathExtension original).getD "")
  let new_extension := if extension = "" then "bak" else extension ++ ".bak"
  setExtension original new_extension

/-- `SafetyGuard::backup_table` (safety.rs:74).  `copyFails` is the I/O
oracle for `fs::copy`: `some e` makes the copy fail with error text `e`.
Returns the outcome and the resulting filesystem. -/
def backup_table (g : SafetyGuard) (fs : Fs) (copyFails : Option String)
    (table_name : String) : Except CcqlError (Option String) × Fs :=
  if !g.backup_enabled then (.ok none, fs)
  else
    match get_table_path g.config fs table_name with
    | .error e => (.error e, fs)
    | .ok source_path =>
      if (fs source_path).isNone then (.ok none, fs)
      else
        let backup_path := create_backup_path source_path
        match copyFails with
        | some ioErr =>
          (.error (.backupFailed ("Failed to backup " ++ source_path ++ " to "
            ++ backup_path ++ ": " ++ ioErr)), fs)
        | none =>
          (.ok (some backup_path), fun p => if p = backup_path then fs source_path else fs p)

/-! ## The query orchestrator (`SqlEngine::execute`, mod.rs:52)

The GlueSQL engine is an oracle returning either an error string or the
final normalized result rows (the payload-normalization loop of
mod.rs:88-153 converts engine payloads row by row and is outside the
claims).  The trace records which effects happened: whether
`backup_table` was invoked and whether the statement reached the engine. -/

structure ExecEnv where
  write_enabled : Bool
  guard : SafetyGuard
  fs : Fs
  copyFails : Option String
  engine : String → Except String (List Json)

inductive ExecOut where
  | writeNotAllowed (msg : String) : ExecOut
  | dangerousOperation (msg : String) : ExecOut
  | sql (msg : String) : ExecOut
  | ok (results : List Json) : ExecOut

structure ExecTrace where
  backupCalled : Bool
  engineCalled : Bool
deriving DecidableEq

def writeNotAllowedMsg : String :=
  "Write operations require --write flag. Use --dry-run to preview changes."

/-- `glue.execute(sql)` and the error mapping of mod.rs:80-84. -/
def runEngine (env : ExecEnv) (sql : String) (fs : Fs) (backupCalled : Bool) :
    ExecOut × ExecTrace × Fs :=
  match env.engine sql with
  | .error e => (.sql ("SQL execution error: " ++ e), ⟨backupCalled, true⟩, fs)
  | .ok results => (.ok results, ⟨backupCalled, true⟩, fs)

/-- `SqlEngine::execute` (mod.rs:52).  Mirrors the control flow: reject a
write when write mode is off; for a write, classify danger, then call
`backup_table` on the extracted table — its result is only pattern-matched
by `if let Ok(Some(path))` for logging, so an `Err` is discarded and
execution proceeds — and finally hand the statement to the engine. -/
def execute (env : ExecEnv) (sql : String) : ExecOut × ExecTrace × Fs :=
  let is_write := is_write_operation sql
  if !env.write_enabled && is_write then
    (.writeNotAllowed writeNotAllowedMsg, ⟨false, false⟩, env.fs)
  else if is_write then
    match check_query sql with
    | .dangerous reason => (.dangerousOperation reason, ⟨false, false⟩, env.fs)
    | .safe =>
      match extract_table_name sql with
      | some table_name =>
        let r := backup_table env.guard env.fs env.copyFails table_name
        runEngine env sql r.2 true
      | none => runEngine env sql env.fs false
  else runEngine env sql env.fs false

/-! ## Helper lemmas -/

theorem hmGet_hmInsert_same (k : String) (v : GlueValue) :
    ∀ m, hmGet k (hmInsert k v m) = some v := by
  intro m
  induction m with
  | nil => simp [hmInsert, hmGet]
  | cons hd tl ih =>
    obtain ⟨k', v'⟩ := hd
    by_cases h : k' = k
    · subst h; simp [hmInsert, hmGet]
    · simp [hmInsert, hmGet, h, ih]

theorem hmGet_hmInsert_other {ki kq : String} (v : GlueValue) (h : ki ≠ kq) :
    ∀ m, hmGet kq (hmInsert ki v m) = hmGet kq m := by
  intro m
  induction m with
  | nil => simp [hmInsert, hmGet, h]
  | cons hd tl ih =>
    obtain ⟨k0, v0⟩ := hd
    by_cases h2 : k0 = ki
    · subst h2
      simp only [hmInsert, if_pos rfl]
      simp [hmGet, h]
    · simp only [hmInsert, if_neg h2]
      by_cases h3 : k0 = kq
      · simp [hmGet, h3]
      · simp [hmGet, h3, ih]

theorem hmGet_objFoldInsert_not_mem {k : String} :
    ∀ (kvs : List (String × Json)) (m : List (String × GlueValue)),
      k ∉ kvs.map Prod.fst → hmGet k (objFoldInsert kvs m) = hmGet k m := by
  intro kvs
  induction kvs with
  | nil => intro m _; rfl
  | cons hd tl ih =>
    intro m hk
    obtain ⟨k', v'⟩ := hd
    simp only [List.map_cons, List.mem_cons] at hk
    push_neg at hk
    rw [objFoldInsert, ih _ hk.2, hmGet_hmInsert_other _ (fun h => hk.1 h.symm)]

theorem hmGet_objFoldInsert_mem {k : String} {v : Json} :
    ∀ (kvs : List (String × Json)) (m : List (String × GlueValue)),
      objGet k kvs = some v → (kvs.map Prod.fst).Nodup →
      hmGet k (objFoldInsert kvs m) = some (json_value_to_glue_value v) := by
  intro kvs
  induction kvs with
  | nil => intro m h _; simp [objGet] at h
  | cons hd tl ih =>
    intro m hget hnodup
    obtain ⟨k', v'⟩ := hd
    simp only [List.map_cons, List.nodup_cons] at hnodup
    by_cases h : k' = k
    · subst h
      rw [objGet, if_pos rfl] at hget
      injection hget with hv
      subst hv
      rw [objFoldInsert, hmGet_objFoldInsert_not_mem tl _ hnodup.1,
        hmGet_hmInsert_same]
    · rw [objGet, if_neg h] at hget
      rw [objFoldInsert]
      exact ih _ hget hnodup.2

/-! ## Claim theorems -/

/-- C4 (confirmed): `check_query` classifies a statement as Dangerous
exactly when its normalized text (whitespace collapsed to single spaces,
uppercased) starts with `DELETE ` or `UPDATE ` and does not contain the
substring ` WHERE `, or starts with `TRUNCATE `; every other statement is
Safe.  A ` WHERE ` substring anywhere — including inside a string literal
or subquery — yields Safe: the check is textual, not a parse. -/
theorem check_query_dangerous_iff (sql : String) :
    (∃ r, check_query sql = .dangerous r) ↔
      (((strStartsWith (normalize_sql sql) "DELETE "
            || strStartsWith (normalize_sql sql) "UPDATE ")
          && !strContains (normalize_sql sql) " WHERE ")
        || strStartsWith (normalize_sql sql) "TRUNCATE ") = true := by
  simp only [check_query, is_delete_without_where, is_update_without_where, is_truncate]
  by_cases h1 : strStartsWith (normalize_sql sql) "DELETE " = true <;>
  by_cases h2 : strStartsWith (normalize_sql sql) "UPDATE " = true <;>
  by_cases h3 : strContains (normalize_sql sql) " WHERE " = true <;>
  by_cases h4 : strStartsWith (normalize_sql sql) "TRUNCATE " = true <;>
  simp_all

/-- C10 (confirmed): `jhistory` and `codex_history` are aliases of one
virtual table: for every disk state, `scan_data` and `fetch_data` return
identical results for the two names (both driven by `scan_jhistory`), and
`fetch_schema` returns schemas identical except for the `table_name`
field. -/
theorem jhistory_codex_history_alias (jsm : JsmStore) (d : DiskState) (key : Key) :
    CompositeStorage.scan_data jsm d "jhistory"
        = CompositeStorage.scan_data jsm d "codex_history"
      ∧ CompositeStorage.fetch_data jsm d "jhistory" key
        = CompositeStorage.fetch_data jsm d "codex_history" key
      ∧ CompositeStorage.fetch_schema jsm "jhistory"
        = .ok (some { codex_history_schema_for "codex_history" with table_name := "jhistory" })
      ∧ CompositeStorage.fetch_schema jsm "codex_history"
        = .ok (some (codex_history_schema_for "codex_history")) :=
  ⟨rfl, rfl, rfl, rfl⟩

/-- A delegate that accepts every mutation without touching state; used to
instantiate universally quantified delegates at concrete inputs. -/
def trivialJsmMut : JsmMut Unit :=
  { insert_schema := fun st _ => (.ok (), st)
    delete_schema := fun st _ => (.ok (), st)
    append_data := fun st _ _ => (.ok (), st)
    insert_data := fun st _ _ => (.ok (), st)
    delete_data := fun st _ _ => (.ok (), st)
    create_index := fun st _ _ _ => (.ok (), st)
    drop_index := fun st _ _ => (.ok (), st)
    rename_schema := fun st _ _ => (.ok (), st)
    rename_column := fun st _ _ _ => (.ok (), st)
    add_column := fun st _ _ => (.ok (), st)
    drop_column := fun st _ _ _ => (.ok (), st) }

/-- C2 counterexample: the rejection message for a mutation on the virtual
table `todos` neither names the table nor states "read-only" — it is the
fixed string "Write operations on virtual multi-file tables not yet
supported" — refuting "returns a WriteRejected error whose message names
the table and states it is virtual and read-only". -/
theorem virtual_write_message_lacks_table_name :
    (CompositeStorage.insert_data trivialJsmMut () "todos" []).1
        = .error (.storageMsg "Write operations on virtual multi-file tables not yet supported")
      ∧ strContains "Write operations on virtual multi-file tables not yet supported" "todos"
          = false
      ∧ strContains "Write operations on virtual multi-file tables not yet supported" "read-only"
          = false :=
  ⟨rfl, by decide, by decide⟩

/-- C2 amended (proved): for every virtual table and every mutation method
of the storage contract, the call returns a `StorageMsg` error refusing
the operation on a virtual table (a fixed message that does not name the
table), and the delegate's file state is returned untouched — every
backing file remains byte-identical. -/
theorem virtual_tables_reject_all_mutations {σ : Type} (jsm : JsmMut σ) (st : σ)
    (t new_t idx col new_col : String) (schema : Schema) (rows : List DataRow)
    (krows : List (Key × DataRow)) (keys : List Key) (cdef oexpr : Unit) (b : Bool)
    (ht : is_virtual_table t = true) (hs : schema.table_name = t) :
    CompositeStorage.insert_schema jsm st schema
        = (.error (.storageMsg "Cannot create schema for virtual table"), st)
      ∧ CompositeStorage.delete_schema jsm st t
        = (.error (.storageMsg "Cannot delete virtual table schema"), st)
      ∧ CompositeStorage.append_data jsm st t rows
        = (.error (.storageMsg "Write operations on virtual multi-file tables not yet supported"), st)
      ∧ CompositeStorage.insert_data jsm st t krows
        = (.error (.storageMsg "Write operations on virtual multi-file tables not yet supported"), st)
      ∧ CompositeStorage.delete_data jsm st t keys
        = (.error (.storageMsg "Write operations on virtual multi-file tables not yet supported"), st)
      ∧ CompositeStorage.create_index jsm st t idx oexpr
        = (.error (.storageMsg "Cannot create index on virtual table"), st)
      ∧ CompositeStorage.drop_index jsm st t idx
        = (.error (.storageMsg "Cannot drop index on virtual table"), st)
      ∧ CompositeStorage.rename_schema jsm st t new_t
        = (.error (.storageMsg "Cannot rename virtual table"), st)
      ∧ CompositeStorage.rename_column jsm st t col new_col
        = (.error (.storageMsg "Cannot alter virtual table"), st)
      ∧ CompositeStorage.add_column jsm st t cdef
        = (.error (.storageMsg "Cannot alter virtual table"), st)
      ∧ CompositeStorage.drop_column jsm st t col b
        = (.error (.storageMsg "Cannot alter virtual table"), st) := by
  refine ⟨?_, ?_, ?_, ?_, ?_, ?_, ?_, ?_, ?_, ?_, ?_⟩ <;>
    simp [CompositeStorage.insert_schema, CompositeStorage.delete_schema,
      CompositeStorage.append_data, CompositeStorage.insert_data,
      CompositeStorage.delete_data, CompositeStorage.create_index,
      CompositeStorage.drop_index, CompositeStorage.rename_schema,
      CompositeStorage.rename_column, CompositeStorage.add_column,
      CompositeStorage.drop_column, ht, hs]

/-- C2 witness: the amended theorem applied at the virtual table `todos`
with the trivial delegate. -/
theorem virtual_tables_reject_all_mutations_witness :
    CompositeStorage.append_data trivialJsmMut () "todos" []
        = (.error (.storageMsg "Write operations on virtual multi-file tables not yet supported"), ())
      ∧ CompositeStorage.drop_index trivialJsmMut () "todos" "idx"
        = (.error (.storageMsg "Cannot drop index on virtual table"), ()) := by
  have h := virtual_tables_reject_all_mutations trivialJsmMut () "todos" "t2" "idx"
    "c" "c2" (codex_history_schema_for "todos") [] [] [] () () true (by decide) rfl
  exact ⟨h.2.2.1, h.2.2.2.2.2.2.1⟩

/-- C6 (confirmed): for every write-class statement the guard classifies
Dangerous, `execute` with write mode enabled returns a DangerousOperation
error before the statement reaches the engine, and no backup is attempted
(the trace records neither a backup call nor an engine call, and the
filesystem is untouched). -/
theorem dangerous_write_aborts_before_engine (env : ExecEnv) (sql r : String)
    (hw : env.write_enabled = true) (hwr : is_write_operation sql = true)
    (hd : check_query sql = .dangerous r) :
    execute env sql = (.dangerousOperation r, ⟨false, false⟩, env.fs) := by
  simp [execute, hw, hwr, hd]

/-- A concrete environment with write mode enabled, used to instantiate
the universally quantified execution theorems. -/
def envWriteOn : ExecEnv :=
  { write_enabled := true
    guard := { config := { data_dir := "/data", codex_data_dir := "/codex" }
               backup_enabled := true }
    fs := fun _ => none
    copyFails := none
    engine := fun _ => .ok [] }

/-- C6 witness: an unscoped DELETE with write mode enabled. -/
theorem dangerous_write_aborts_before_engine_witness :
    execute envWriteOn "DELETE FROM history"
      = (.dangerousOperation deleteDangerMsg, ⟨false, false⟩, envWriteOn.fs) :=
  dangerous_write_aborts_before_engine envWriteOn "DELETE FROM history" deleteDangerMsg
    rfl (by decide) (by decide)

/-- C7 (confirmed): when write mode is disabled, `execute` on any
write-class statement (trimmed text starting, case-insensitively, with
INSERT/UPDATE/DELETE/DROP/CREATE/ALTER/TRUNCATE) returns a WriteNotAllowed
error with no backup created and the engine never invoked; a non-write
statement is unaffected by the write-mode flag: it goes straight to the
engine with no backup, whatever `write_enabled` is. -/
theorem write_mode_gate (env : ExecEnv) (sql : String) :
    (env.write_enabled = false → is_write_operation sql = true →
      execute env sql = (.writeNotAllowed writeNotAllowedMsg, ⟨false, false⟩, env.fs))
    ∧ (is_write_operation sql = false →
      execute env sql = runEngine env sql env.fs false) := by
  constructor
  · intro hw hwr
    simp [execute, hw, hwr]
  · intro hr
    simp [execute, hr]

/-- A concrete environment with write mode disabled. -/
def envWriteOff : ExecEnv :=
  { write_enabled := false
    guard := { config := { data_dir := "/data", codex_data_dir := "/codex" }
               backup_enabled := true }
    fs := fun _ => none
    copyFails := none
    engine := fun _ => .ok [] }

/-- C7 witness: the spec scenario — write mode disabled, an INSERT is
rejected with no backup and no engine call; a SELECT still runs. -/
theorem write_mode_gate_witness :
    execute envWriteOff "INSERT INTO history (display) VALUES ('x')"
        = (.writeNotAllowed writeNotAllowedMsg, ⟨false, false⟩, envWriteOff.fs)
      ∧ execute envWriteOff "SELECT * FROM history"
        = runEngine envWriteOff "SELECT * FROM history" envWriteOff.fs false :=
  ⟨(write_mode_gate envWriteOff "INSERT INTO history (display) VALUES ('x')").1 rfl (by decide),
   (write_mode_gate envWriteOff "SELECT * FROM history").2 (by decide)⟩

/-- The filesystem of the C1 failing input: only the history table file
exists. -/
def c1Fs : Fs := fun p => if p = "/data/history.jsonl" then some [104, 105] else none

/-- The C1 failing input: write mode on, backups enabled, the history file
present, and the `fs::copy` oracle failing. -/
def c1Env : ExecEnv :=
  { write_enabled := true
    guard := { config := { data_dir := "/data", codex_data_dir := "/codex" }
               backup_enabled := true }
    fs := c1Fs
    copyFails := some "Permission denied (os error 13)"
    engine := fun _ => .ok [] }

/-- C1 (code bug): on the failing input, `backup_table "history"` returns
a BackupFailed error, yet `execute` on the Safe write
`DELETE FROM history WHERE id = 1` still reaches the engine and succeeds:
the `if let Ok(Some(path))` in mod.rs:74 discards the `Err`, so a
successful backup is not a precondition for execution as the claim (and
the spec) require. -/
theorem backup_failure_is_ignored :
    check_query "DELETE FROM history WHERE id = 1" = .safe
      ∧ (backup_table c1Env.guard c1Env.fs c1Env.copyFails "history").1
        = .error (.backupFailed
            "Failed to backup /data/history.jsonl to /data/history.jsonl.bak: Permission denied (os error 13)")
      ∧ execute c1Env "DELETE FROM history WHERE id = 1" = (.ok [], ⟨true, true⟩, c1Fs) :=
  ⟨by decide, rfl, rfl⟩

theorem objGet_none_iff_not_mem {k : String} :
    ∀ kvs : List (String × Json), objGet k kvs = none ↔ k ∉ kvs.map Prod.fst := by
  intro kvs
  induction kvs with
  | nil => simp [objGet]
  | cons hd tl ih =>
    obtain ⟨k', v'⟩ := hd
    by_cases h : k' = k
    · subst h; simp [objGet]
    · have h2 : ¬(k = k') := fun he => h he.symm
      simp [objGet, h, h2, ih]

/-- C3 counterexample: a transcript record that itself carries a
`_source_file` field keeps its own value — the output row shows `evil`,
not the scanner-supplied file name `a.jsonl` — refuting "the metadata
value, not the record's own value, appears in the output row". -/
theorem metadata_overwritten_by_record :
    hmGet "_source_file"
        (json_to_data_row_with_meta (.obj [("_source_file", .str "evil")]) "a.jsonl" "abc").entries
      = some (.str "evil")
    ∧ GlueValue.str "evil" ≠ GlueValue.str "a.jsonl" :=
  ⟨rfl, fun h => by injection h with h'; exact absurd h' (by decide)⟩

/-- C3 amended (proved): the synthetic metadata columns are inserted
first and the parsed record's fields after, so a same-named field already
present in the record overwrites the metadata: the record's own value
appears in the output row, and a metadata column survives only when the
record does not set that name.  Holds for both metadata-attaching
builders (transcripts: `_source_file`/`_session_id`; todos:
`_source_file`/`_workspace_id`/`_agent_id`). -/
theorem record_fields_override_metadata (kvs : List (String × Json))
    (sf sid wid aid k : String) (v : Json)
    (hnodup : (kvs.map Prod.fst).Nodup) (hget : objGet k kvs = some v) :
    (hmGet k (json_to_data_row_with_meta (.obj kvs) sf sid).entries
        = some (json_value_to_glue_value v)
      ∧ hmGet k (todo_json_to_data_row (.obj kvs) sf wid aid).entries
        = some (json_value_to_glue_value v))
    ∧ (objGet "_source_file" kvs = none →
        hmGet "_source_file" (json_to_data_row_with_meta (.obj kvs) sf sid).entries
          = some (.str sf))
    ∧ (objGet "_session_id" kvs = none →
        hmGet "_session_id" (json_to_data_row_with_meta (.obj kvs) sf sid).entries
          = some (.str sid))
    ∧ (objGet "_agent_id" kvs = none →
        hmGet "_agent_id" (todo_json_to_data_row (.obj kvs) sf wid aid).entries
          = some (.str aid)) := by
  refine ⟨⟨?_, ?_⟩, ?_, ?_, ?_⟩
  · simp only [json_to_data_row_with_meta, DataRow.entries]
    exact hmGet_objFoldInsert_mem kvs _ hget hnodup
  · simp only [todo_json_to_data_row, DataRow.entries]
    exact hmGet_objFoldInsert_mem kvs _ hget hnodup
  · intro habs
    simp only [json_to_data_row_with_meta, DataRow.entries]
    rw [hmGet_objFoldInsert_not_mem kvs _ (objGet_none_iff_not_mem kvs |>.mp habs)]
    rw [hmGet_hmInsert_other _ (by decide), hmGet_hmInsert_same]
  · intro habs
    simp only [json_to_data_row_with_meta, DataRow.entries]
    rw [hmGet_objFoldInsert_not_mem kvs _ (objGet_none_iff_not_mem kvs |>.mp habs)]
    rw [hmGet_hmInsert_same]
  · intro habs
    simp only [todo_json_to_data_row, DataRow.entries]
    rw [hmGet_objFoldInsert_not_mem kvs _ (objGet_none_iff_not_mem kvs |>.mp habs)]
    rw [hmGet_hmInsert_same]

/-- C3 witness: the amended theorem at the spec's todo scenario record. -/
theorem record_fields_override_metadata_witness :
    hmGet "content"
        (todo_json_to_data_row (.obj [("content", .str "x"), ("status", .str "pending")])
          "alpha-agent-beta.json" "alpha" "beta").entries
      = some (.str "x")
    ∧ hmGet "_agent_id"
        (todo_json_to_data_row (.obj [("content", .str "x"), ("status", .str "pending")])
          "alpha-agent-beta.json" "alpha" "beta").entries
      = some (.str "beta") := by
  have h := record_fields_override_metadata [("content", .str "x"), ("status", .str "pending")]
    "alpha-agent-beta.json" "sid" "alpha" "beta" "content" (.str "x") (by decide) rfl
  exact ⟨h.1.2, h.2.2.2 rfl⟩

theorem jhistoryExtraInsert_preserves {k : String}
    (hk : k = "display" ∨ k = "timestamp" ∨ k = "session_id" ∨ k = "sessionId"
      ∨ k = "text" ∨ k = "ts") :
    ∀ (obj : List (String × Json)) (m : List (String × GlueValue)),
      hmGet k (jhistoryExtraInsert obj m) = hmGet k m := by
  intro obj
  induction obj with
  | nil => intro m; rfl
  | cons hd tl ih =>
    intro m
    obtain ⟨k', v'⟩ := hd
    by_cases h : (k' = "display" || k' = "timestamp" || k' = "session_id" || k' = "sessionId"
        || k' = "text" || k' = "ts") = true
    · simp only [jhistoryExtraInsert, if_pos h]
      exact ih m
    · simp only [jhistoryExtraInsert, if_neg h]
      rw [ih, hmGet_hmInsert_other]
      intro he
      subst he
      rcases hk with h1 | h1 | h1 | h1 | h1 | h1 <;> subst h1 <;> simp at h

/-- The normalized row of `jhistory_json_to_data_row` before extra fields
are re-attached, as a function of the computed canonical values. -/
theorem jhistory_row_canonical_fields (obj : List (String × Json)) :
    ∀ (text session_id : String) (ts_seconds : Int),
      (jhistory_json_to_data_row (.obj obj) = some (.map (jhistoryExtraInsert obj
        (hmInsert "ts" (.i64 ts_seconds) (hmInsert "text" (.str text)
          (hmInsert "sessionId" (.str session_id) (hmInsert "session_id" (.str session_id)
            (hmInsert "timestamp" (.i64 (i64SatMul ts_seconds 1000))
              (hmInsert "display" (.str text) []))))))))) →
      hmGet "ts" ((jhistory_json_to_data_row (.obj obj)).getD (.map [])).entries
          = some (.i64 ts_seconds)
        ∧ hmGet "timestamp" ((jhistory_json_to_data_row (.obj obj)).getD (.map [])).entries
          = some (.i64 (i64SatMul ts_seconds 1000))
        ∧ hmGet "display" ((jhistory_json_to_data_row (.obj obj)).getD (.map [])).entries
          = some (.str text) := by
  intro text session_id ts_seconds hrow
  rw [hrow]
  simp only [Option.getD_some, DataRow.entries]
  refine ⟨?_, ?_, ?_⟩
  · rw [jhistoryExtraInsert_preserves (by tauto), hmGet_hmInsert_same]
  · rw [jhistoryExtraInsert_preserves (by tauto),
      hmGet_hmInsert_other _ (by decide), hmGet_hmInsert_other _ (by decide),
      hmGet_hmInsert_other _ (by decide), hmGet_hmInsert_other _ (by decide),
      hmGet_hmInsert_same]
  · rw [jhistoryExtraInsert_preserves (by tauto),
      hmGet_hmInsert_other _ (by decide), hmGet_hmInsert_other _ (by decide),
      hmGet_hmInsert_other _ (by decide), hmGet_hmInsert_other _ (by decide),
      hmGet_hmInsert_other _ (by decide), hmGet_hmInsert_same]

/-- C5 counterexample: for the jhistory record `{"ts": 20000000000}` the
raw `ts` value exceeds 10,000,000,000, yet the output row carries
`ts = 20000000000` — the value is *not* divided by 1000 as the claim
states (magnitude normalization applies only to the `timestamp` alias). -/
theorem jhistory_ts_not_normalized :
    (20000000000 : Int) > 10000000000
      ∧ (jhistory_json_to_data_row (.obj [("ts", .num 20000000000)])).map
          (fun r => hmGet "ts" r.entries) = some (some (.i64 20000000000))
      ∧ some (some (GlueValue.i64 20000000000)) ≠ some (some (GlueValue.i64 20000000)) :=
  ⟨by decide, rfl, fun h => by
    injection h with h1; injection h1 with h2; injection h2 with h3
    exact absurd h3 (by decide)⟩

/-- C5 amended (proved): the canonical seconds value is taken from `ts`
first and only the `timestamp` fallback passes through
`normalize_ts_seconds` (divide a value above 10,000,000,000 by 1000): a
`ts` value is used verbatim whatever its magnitude, while a `timestamp`
value is magnitude-normalized; the output row carries `ts` = the canonical
seconds and `timestamp` = canonical seconds saturating-× 1000.  The spec
scenario line `{"session_id":"abc123","ts":1754402102,"text":"hello"}`
normalizes to display "hello", ts 1754402102, timestamp 1754402102000. -/
theorem jhistory_timestamp_normalization (obj : List (String × Json)) (n : Int) :
    ((objGet "ts" obj).bind json_value_as_i64 = some n →
      hmGet "ts" ((jhistory_json_to_data_row (.obj obj)).getD (.map [])).entries
          = some (.i64 n)
        ∧ hmGet "timestamp" ((jhistory_json_to_data_row (.obj obj)).getD (.map [])).entries
          = some (.i64 (i64SatMul n 1000)))
    ∧ ((objGet "ts" obj).bind json_value_as_i64 = none →
       (objGet "timestamp" obj).bind json_value_as_i64 = some n →
      hmGet "ts" ((jhistory_json_to_data_row (.obj obj)).getD (.map [])).entries
          = some (.i64 (normalize_ts_seconds n))
        ∧ hmGet "timestamp" ((jhistory_json_to_data_row (.obj obj)).getD (.map [])).entries
          = some (.i64 (i64SatMul (normalize_ts_seconds n) 1000)))
    ∧ (jhistory_json_to_data_row
          (.obj [("session_id", .str "abc123"), ("ts", .num 1754402102), ("text", .str "hello")])).map
        (fun r => (hmGet "display" r.entries, hmGet "ts" r.entries, hmGet "timestamp" r.entries))
      = some (some (.str "hello"), some (.i64 1754402102), some (.i64 1754402102000)) := by
  refine ⟨?_, ?_, rfl⟩
  · intro hts
    have hrow := jhistory_row_canonical_fields obj
      ((((objGet "text" obj).orElse fun _ => objGet "display" obj).bind
        json_value_as_string).getD "")
      ((((objGet "session_id" obj).orElse fun _ => objGet "sessionId" obj).bind
        json_value_as_string).getD "")
      n
      (by simp [jhistory_json_to_data_row, hts, Option.orElse])
    exact ⟨hrow.1, hrow.2.1⟩
  · intro hts htimestamp
    have hrow := jhistory_row_canonical_fields obj
      ((((objGet "text" obj).orElse fun _ => objGet "display" obj).bind
        json_value_as_string).getD "")
      ((((objGet "session_id" obj).orElse fun _ => objGet "sessionId" obj).bind
        json_value_as_string).getD "")
      (normalize_ts_seconds n)
      (by simp [jhistory_json_to_data_row, hts, htimestamp, Option.orElse, Option.map])
    exact ⟨hrow.1, hrow.2.1⟩

/-- C5 witness: both branches of the amended theorem at concrete records:
`ts` present (used verbatim) and `timestamp`-only in milliseconds
(normalized). -/
theorem jhistory_timestamp_normalization_witness :
    hmGet "ts" ((jhistory_json_to_data_row
          (.obj [("ts", .num 1754402102)])).getD (.map [])).entries
        = some (.i64 1754402102)
      ∧ hmGet "ts" ((jhistory_json_to_data_row
          (.obj [("timestamp", .num 1754402102000)])).getD (.map [])).entries
        = some (.i64 (normalize_ts_seconds 1754402102000)) :=
  ⟨((jhistory_timestamp_normalization [("ts", .num 1754402102)] 1754402102).1 rfl).1,
   ((jhistory_timestamp_normalization [("timestamp", .num 1754402102000)]
      1754402102000).2.1 rfl rfl).1⟩

/-- An empty filesystem: no file exists. -/
def emptyFs : Fs := fun _ => none

/-- A guard with backups enabled over `/data`. -/
def c8Guard : SafetyGuard :=
  { config := { data_dir := "/data", codex_data_dir := "/codex" }, backup_enabled := true }

/-- C8 counterexample: for the table `widgets`, whose backing file does
not exist in any form (`/data/widgets.jsonl` and `/data/widgets.json` are
both absent) and with backups enabled, `backup_table` does not return
`None` as the claim states: it fails with an `Error::Sql` from
`get_table_path`. -/
theorem backup_unknown_table_errors :
    emptyFs "/data/widgets.jsonl" = none
      ∧ emptyFs "/data/widgets.json" = none
      ∧ backup_table c8Guard emptyFs none "widgets"
        = (.error (.sql "Cannot determine file path for table: widgets"), emptyFs)
      ∧ (Except.error (CcqlError.sql "Cannot determine file path for table: widgets")
          : Except CcqlError (Option String)) ≠ .ok none :=
  ⟨rfl, rfl, rfl, fun h => Except.noConfusion h⟩

/-- C8 amended (proved): `backup_table(table)` returns `None` when backups
are disabled, or when the table's path is determined (`history`/`stats`
fixed paths, otherwise an existing `.jsonl`/`.json` file — so for an
unrecognized table with no such file the call fails with an `Error::Sql`
instead of returning `None`); otherwise it copies the backing file
byte-for-byte to the sibling path formed by appending `.bak` to the
existing extension (or the literal extension `bak` if none), overwriting
any prior backup of that table, and returns that path; a copy I/O failure
yields a `BackupFailed` error carrying source, destination and the
underlying error. -/
theorem backup_table_spec (g : SafetyGuard) (fs : Fs) (copyFails : Option String)
    (t : String) :
    (g.backup_enabled = false → backup_table g fs copyFails t = (.ok none, fs))
    ∧ (∀ src, g.backup_enabled = true → get_table_path g.config fs t = .ok src →
        fs src = none → backup_table g fs copyFails t = (.ok none, fs))
    ∧ (∀ e, g.backup_enabled = true → get_table_path g.config fs t = .error e →
        backup_table g fs copyFails t = (.error e, fs))
    ∧ (∀ src, g.backup_enabled = true → get_table_path g.config fs t = .ok src →
        (fs src).isSome = true → copyFails = none →
        backup_table g fs copyFails t
          = (.ok (some (create_backup_path src)),
             fun p => if p = create_backup_path src then fs src else fs p))
    ∧ (∀ src io, g.backup_enabled = true → get_table_path g.config fs t = .ok src →
        (fs src).isSome = true → copyFails = some io →
        backup_table g fs copyFails t
          = (.error (.backupFailed ("Failed to backup " ++ src ++ " to "
              ++ create_backup_path src ++ ": " ++ io)), fs))
    ∧ create_backup_path "/data/history.jsonl" = "/data/history.jsonl.bak"
    ∧ create_backup_path "/data/stats-cache.json" = "/data/stats-cache.json.bak" := by
  refine ⟨?_, ?_, ?_, ?_, ?_, by decide, by decide⟩
  · intro hb
    simp [backup_table, hb]
  · intro src hb hp hn
    simp [backup_table, hb, hp, hn]
  · intro e hb hp
    simp [backup_table, hb, hp]
  · intro src hb hp hex hc
    simp [backup_table, hb, hp, hc, Option.isNone_iff_eq_none, Option.isSome_iff_ne_none.mp hex]
  · intro src io hb hp hex hc
    simp [backup_table, hb, hp, hc, Option.isNone_iff_eq_none, Option.isSome_iff_ne_none.mp hex]

/-- The filesystem for the C8 witness: only the history table file
exists, with a stale backup that will be overwritten. -/
def c8Fs : Fs := fun p =>
  if p = "/data/history.jsonl" then some [104, 105]
  else if p = "/data/history.jsonl.bak" then some [0] else none

/-- C8 witness: the amended theorem at concrete inputs — backups disabled
returns `None`; a successful copy of `history` returns the `.bak` sibling
path and overwrites the stale backup; a failing copy reports both paths
and the I/O error. -/
theorem backup_table_spec_witness :
    backup_table { c8Guard with backup_enabled := false } c8Fs none "history"
        = (.ok none, c8Fs)
      ∧ backup_table c8Guard c8Fs none "history"
        = (.ok (some "/data/history.jsonl.bak"),
           fun p => if p = "/data/history.jsonl.bak" then c8Fs "/data/history.jsonl" else c8Fs p)
      ∧ backup_table c8Guard c8Fs (some "Permission denied") "history"
        = (.error (.backupFailed
            "Failed to backup /data/history.jsonl to /data/history.jsonl.bak: Permission denied"), c8Fs) := by
  refine ⟨(backup_table_spec _ c8Fs none "history").1 rfl, ?_, ?_⟩
  · have h := (backup_table_spec c8Guard c8Fs none "history").2.2.2.1
      "/data/history.jsonl" rfl rfl rfl rfl
    exact h
  · have h := (backup_table_spec c8Guard c8Fs (some "Permission denied") "history").2.2.2.2.1
      "/data/history.jsonl" "Permission denied" rfl rfl rfl rfl
    exact h

/-! ## Order lemmas for `strLt` and the `BTreeMap` model -/

theorem charListLt_irrefl : ∀ l : List Char, charListLt l l = false := by
  intro l
  induction l with
  | nil => rfl
  | cons a as ih => simp [charListLt, lt_self_iff_false, ih]

theorem charListLt_asymm : ∀ {a b : List Char},
    charListLt a b = true → charListLt b a = false := by
  intro a
  induction a with
  | nil =>
    intro b h
    cases b with
    | nil => simp [charListLt] at h
    | cons y ys => rfl
  | cons x xs ih =>
    intro b h
    cases b with
    | nil => simp [charListLt] at h
    | cons y ys =>
      simp only [charListLt] at h ⊢
      by_cases h1 : x < y
      · have h2 : ¬y < x := lt_asymm h1
        simp [h1, h2]
      · by_cases h2 : y < x
        · simp [h1, h2] at h
        · simp only [if_neg h1, if_neg h2] at h ⊢
          exact ih h

theorem strLt_irrefl (s : String) : strLt s s = false :=
  charListLt_irrefl s.data

theorem strLt_asymm {a b : String} (h : strLt a b = true) : strLt b a = false :=
  charListLt_asymm h

theorem strLt_ne {a b : String} (h : strLt a b = true) : a ≠ b := by
  intro he
  subst he
  rw [strLt_irrefl] at h
  exact Bool.false_ne_true h

theorem keysLtAllB_forall {k : String} :
    ∀ {l : List (String × Json)}, keysLtAllB k l = true → ∀ b ∈ l, strLt k b.1 = true := by
  intro l
  induction l with
  | nil => intro _ b hb; exact absurd hb (List.not_mem_nil b)
  | cons x xs ih =>
    intro h b hb
    rw [keysLtAllB, Bool.and_eq_true] at h
    rcases List.mem_cons.mp hb with h1 | h1
    · exact h1 ▸ h.1
    · exact ih h.2 b h1

theorem btreeInsert_append {k : String} {v : Json} :
    ∀ {acc : List (String × Json)}, (∀ a ∈ acc, strLt a.1 k = true) →
      btreeInsert k v acc = acc ++ [(k, v)] := by
  intro acc
  induction acc with
  | nil => intro _; rfl
  | cons x xs ih =>
    intro h
    have hx : strLt x.1 k = true := h x (List.mem_cons_self x xs)
    obtain ⟨k', v'⟩ := x
    rw [btreeInsert, if_neg, if_neg]
    · rw [ih fun a ha => h a (List.mem_cons_of_mem _ ha)]
      rfl
    · exact fun he => strLt_ne hx he.symm
    · rw [strLt_asymm hx]
      exact Bool.false_ne_true

theorem foldl_btreeInsert :
    ∀ (l acc : List (String × Json)),
      (∀ a ∈ acc, ∀ b ∈ l, strLt a.1 b.1 = true) → keysSortedB l = true →
      l.foldl (fun m kv => btreeInsert kv.1 kv.2 m) acc = acc ++ l := by
  intro l
  induction l with
  | nil => intro acc _ _; simp
  | cons x xs ih =>
    intro acc hlt hsort
    rw [keysSortedB, Bool.and_eq_true] at hsort
    rw [List.foldl_cons,
      btreeInsert_append fun a ha => hlt a ha x (List.mem_cons_self x xs),
      ih (acc ++ [(x.1, x.2)]) ?_ hsort.2]
    · simp
    · intro a ha b hb
      rcases List.mem_append.mp ha with h1 | h1
      · exact hlt a h1 b (List.mem_cons_of_mem _ hb)
      · have : a = (x.1, x.2) := List.mem_singleton.mp h1
        subst this
        exact keysLtAllB_forall hsort.1 b hb

theorem btreeFromList_sorted {l : List (String × Json)} (h : keysSortedB l = true) :
    btreeFromList l = l := by
  rw [btreeFromList, foldl_btreeInsert l [] (by simp) h]
  rfl

/-! ## Well-formedness decomposition and the round-trip induction -/

theorem wfListB_mem : ∀ {xs : List Json}, Json.wfListB xs = true →
    ∀ x ∈ xs, Json.wfB x = true := by
  intro xs
  induction xs with
  | nil => intro _ x hx; exact absurd hx (List.not_mem_nil x)
  | cons y ys ih =>
    intro h x hx
    rw [Json.wfListB, Bool.and_eq_true] at h
    rcases List.mem_cons.mp hx with h1 | h1
    · exact h1 ▸ h.1
    · exact ih h.2 x h1

theorem wfObjB_mem : ∀ {kvs : List (String × Json)}, Json.wfObjB kvs = true →
    ∀ kv ∈ kvs, Json.wfB kv.2 = true := by
  intro kvs
  induction kvs with
  | nil => intro _ kv hkv; exact absurd hkv (List.not_mem_nil kv)
  | cons y ys ih =>
    intro h kv hkv
    obtain ⟨k, v⟩ := y
    rw [Json.wfObjB, Bool.and_eq_true] at h
    rcases List.mem_cons.mp hkv with h1 | h1
    · exact h1 ▸ h.1
    · exact ih h.2 kv h1

/-- Structural induction over `Json` with pointwise hypotheses for the
nested lists. -/
theorem Json.myInduction {P : Json → Prop}
    (hnull : P .null) (hbool : ∀ b, P (.bool b)) (hnum : ∀ n, P (.num n))
    (hstr : ∀ s, P (.str s))
    (harr : ∀ xs, (∀ x ∈ xs, P x) → P (.arr xs))
    (hobj : ∀ kvs, (∀ kv ∈ kvs, P kv.2) → P (.obj kvs)) : ∀ v, P v := by
  intro v
  refine Json.rec (motive_1 := P) (motive_2 := fun xs => ∀ x ∈ xs, P x)
    (motive_3 := fun kvs => ∀ kv ∈ kvs, P kv.2) (motive_4 := fun kv => P kv.2)
    hnull hbool hnum hstr harr hobj ?_ ?_ ?_ ?_ ?_ v
  · intro x hx; exact absurd hx (List.not_mem_nil x)
  · intro hd tl h1 h2 x hx
    rcases List.mem_cons.mp hx with h | h
    · exact h ▸ h1
    · exact h2 x h
  · intro kv hkv; exact absurd hkv (List.not_mem_nil kv)
  · intro hd tl h1 h2 kv hkv
    rcases List.mem_cons.mp hkv with h | h
    · exact h ▸ h1
    · exact h2 kv h
  · intro fst snd h; exact h

theorem gvjList_jvgList : ∀ (xs : List Json),
    (∀ x ∈ xs, glue_value_to_json (json_value_to_glue_value x) = x) →
    gvjList (jvgList xs) = xs := by
  intro xs
  induction xs with
  | nil => intro _; rfl
  | cons x xs' ih =>
    intro h
    rw [jvgList, gvjList, h x (List.mem_cons_self x xs'),
      ih fun y hy => h y (List.mem_cons_of_mem _ hy)]

theorem gvjObj_jvgObj : ∀ (kvs : List (String × Json)),
    (∀ kv ∈ kvs, glue_value_to_json (json_value_to_glue_value kv.2) = kv.2) →
    gvjObj (jvgObj kvs) = kvs := by
  intro kvs
  induction kvs with
  | nil => intro _; rfl
  | cons kv kvs' ih =>
    intro h
    obtain ⟨k, v⟩ := kv
    rw [jvgObj, gvjObj, h (k, v) (List.mem_cons_self _ kvs'),
      ih fun y hy => h y (List.mem_cons_of_mem _ hy)]

/-- C9 (confirmed): for every JSON value built from null, bool, string,
i64-representable integer, array and object (the `Json.wfB` inputs:
numbers in `i64` range and objects with the `BTreeMap` sorted-unique-key
invariant that `serde_json` maintains), the codec round trip holds:
`glue_value_to_json (json_value_to_glue_value v) = v`. -/
theorem json_glue_roundtrip (v : Json) (h : Json.wfB v = true) :
    glue_value_to_json (json_value_to_glue_value v) = v := by
  revert h
  induction v using Json.myInduction with
  | hnull => intro _; rfl
  | hbool b => intro _; rfl
  | hnum n =>
    intro h
    rw [Json.wfB] at h
    rw [json_value_to_glue_value, if_pos h]
    rfl
  | hstr s => intro _; rfl
  | harr xs ih =>
    intro h
    rw [Json.wfB] at h
    rw [json_value_to_glue_value, glue_value_to_json,
      gvjList_jvgList xs fun x hx => ih x hx (wfListB_mem h x hx)]
  | hobj kvs ih =>
    intro h
    rw [Json.wfB, Bool.and_eq_true] at h
    rw [json_value_to_glue_value, glue_value_to_json,
      gvjObj_jvgObj kvs fun kv hkv => ih kv hkv (wfObjB_mem h.2 kv hkv),
      btreeFromList_sorted h.1]

/-- C9 witness: the round trip at a concrete nested value covering all
six input constructors. -/
theorem json_glue_roundtrip_witness :
    Json.wfB (.obj [("a", .num 1), ("b", .arr [.str "x", .null, .bool true]),
        ("c", .obj [("d", .num (-9223372036854775808))])]) = true
      ∧ glue_value_to_json (json_value_to_glue_value
          (.obj [("a", .num 1), ("b", .arr [.str "x", .null, .bool true]),
            ("c", .obj [("d", .num (-9223372036854775808))])]))
        = .obj [("a", .num 1), ("b", .arr [.str "x", .null, .bool true]),
            ("c", .obj [("d", .num (-9223372036854775808))])] :=
  ⟨by decide, json_glue_roundtrip _ (by decide)⟩

end Devsql
